import Mathlib

/-!
# Time64: calendar conversion and software clock

A shallow embedding of `Time64.cpp` (the 64-bit variant of the Arduino Time
library) together with theorems about its calendar converter
(`breakTime` / `makeTime`) and its software clock (`now`, `setTime`, ...).

Conventions of the embedding:

* C `/` and `%` on signed integers truncate toward zero: `Int.tdiv`, `Int.tmod`.
* `int64_t` values are unbounded `Int`s (64-bit overflow is out of scope of
  every statement below); `int32_t` locals are narrowed with `toInt32` on
  assignment from a 64-bit value, and 32-bit arithmetic on the day count is
  checked with `int32` (signed overflow is undefined behaviour: the model has
  no result).
* `uint32_t` values are `Nat`s reduced `% 2^32`.
* Reading a table outside its bounds is undefined behaviour: no result.
* The header `TimeLib64.h` is not part of the sources; the record
  `tmElements_t` and the constants `SECS_PER_*` are modelled from the spec.
* A clock operation runs with one tick-source reading `millis` (constant during
  the call) and with `ext`, the value the sync callback returns if the
  operation invokes it; the ghost field `syncCalls` counts these invocations.
  `step` runs one public operation (`Op`) and returns the state it leaves.
-/

namespace Time64

/-! ## Data model -/

/-- Modelled from the spec: the calendar fields record declared in the header
`TimeLib64.h` (absent): `Year` is an integer offset from 1970 that may be
negative, `Month` 1-12, `Day` 1-31, `Hour` 0-23, `Minute`/`Second` 0-59,
`Wday` 1-7 with 1 = Sunday. Field widths are not known, so fields are `Int`. -/
structure tmElements_t where
  Second : Int
  Minute : Int
  Hour : Int
  Wday : Int
  Day : Int
  Month : Int
  Year : Int
  deriving DecidableEq, Repr

/-- Modelled from the spec: seconds per minute (header macro `SECS_PER_MIN`). -/
def SECS_PER_MIN : Int := 60

/-- Modelled from the spec: seconds per hour (header macro `SECS_PER_HOUR`). -/
def SECS_PER_HOUR : Int := 3600

/-- Modelled from the spec: seconds per day (header macro `SECS_PER_DAY`). -/
def SECS_PER_DAY : Int := 86400

/-- Narrowing conversion of a 64-bit value to `int32_t` (two's complement). -/
def toInt32 (x : Int) : Int := (x + 2147483648) % 4294967296 - 2147483648

/-- Result of an `int32_t` arithmetic operation: undefined on overflow. -/
def int32 (x : Int) : Option Int :=
  if -2147483648 ≤ x ∧ x ≤ 2147483647 then some x else none

/-- The Arduino `abs` macro. -/
def abs (x : Int) : Int := if x > 0 then x else -x

/-- `LEAP_YEAR(Y)`: leap year calculator, `Y` is the offset from 1970. -/
def LEAP_YEAR (Y : Int) : Bool :=
  decide (1970 + Y > 0) && !(decide (Int.tmod (1970 + Y) 4 ≠ 0)) &&
    (decide (Int.tmod (1970 + Y) 100 ≠ 0) || !(decide (Int.tmod (1970 + Y) 400 ≠ 0)))

/-- The table `monthDays`. -/
def monthDays : List Int := [31, 28, 31, 30, 31, 30, 31, 31, 30, 31, 30, 31]

/-- The local table `leapMonthDays`. -/
def leapMonthDays : List Int := [31, 29, 31, 30, 31, 30, 31, 31, 30, 31, 30, 31]

/-- Array read `tbl[i]`; no result outside the bounds of the table. -/
def readTable (tbl : List Int) (i : Int) : Option Int :=
  if i < 0 then none else tbl.get? i.toNat

/-! ## breakTime -/

/-- The loop `for (y = 0; y < tm.Year; y++) days += LEAP_YEAR(y) ? 366 : 365`,
started at `y` with `n` iterations left. -/
def yearLoopUp : Nat → Int → Int → Int
  | 0, _, days => days
  | n + 1, y, days => yearLoopUp n (y + 1) (if LEAP_YEAR y then days + 366 else days + 365)

/-- The loop `while (days < day_bin)` of the non-negative branch. The state is
`(month_bin, days, previous_days)`; the result is `(month_bin, previous_days)`.
The loop reads `monthDays[12]` on its 13th iteration, so 14 units of fuel
always suffice. -/
def monthLoopUp (leap : Bool) (day_bin : Int) : Nat → Int → Int → Int → Option (Int × Int)
  | 0, _, _, _ => none
  | fuel + 1, month_bin, days, previous_days =>
    if days < day_bin then
      let month_bin := month_bin + 1
      let previous_days := days
      if month_bin = 1 then
        monthLoopUp leap day_bin fuel month_bin (days + (28 + (if leap then 1 else 0))) previous_days
      else
        match readTable monthDays month_bin with
        | none => none
        | some d => monthLoopUp leap day_bin fuel month_bin (days + d) previous_days
    else some (month_bin, previous_days)

/-- The loop `for (y = -1; y > tm.Year; y--) day_bin += LEAP_YEAR(y) ? 366 : 365`,
started at `y` with `n` iterations left. -/
def yearLoopDown : Nat → Int → Int → Int
  | 0, _, day_bin => day_bin
  | n + 1, y, day_bin =>
    yearLoopDown n (y - 1) (if LEAP_YEAR y then day_bin + 366 else day_bin + 365)

/-- The loop `while (day_bin < 1)` of the negative branch. The state is
`(month_bin, day_bin)`. The loop reads index `-1` on its 13th iteration, so 14
units of fuel always suffice. -/
def monthLoopDown (leap : Bool) : Nat → Int → Int → Option (Int × Int)
  | 0, _, _ => none
  | fuel + 1, month_bin, day_bin =>
    if day_bin < 1 then
      let month_bin := month_bin - 1
      match readTable (if leap then leapMonthDays else monthDays) (month_bin - 1) with
      | none => none
      | some d => monthLoopDown leap fuel month_bin (day_bin + d)
    else some (month_bin, day_bin)

/-- `breakTime(timeInput, tm)`: every field of `tm` is overwritten, so the
result is the new record; `none` when the execution is undefined. -/
def breakTime (timeInput : Int) : Option tmElements_t :=
  let time : Int := timeInput
  if time ≥ 0 then do
    let sec_bin := Int.tmod time 86400
    let Second := Int.tmod sec_bin 60
    let min_bin := toInt32 (Int.tdiv sec_bin 60)
    let Hour := Int.tdiv min_bin 60
    let Minute := Int.tmod min_bin 60
    let day_bin := toInt32 (Int.tdiv time 86400)
    let w ← int32 (day_bin + 4)
    let Wday := Int.tmod w 7 + 1
    let y400 ← int32 (day_bin * 400)
    let y2 ← int32 (y400 + 2)
    let Year := Int.tdiv y2 146097
    let leap := LEAP_YEAR Year
    let days := yearLoopUp Year.toNat 0 (-1)
    let day_bin := toInt32 (day_bin - days)
    if day_bin = 0 then
      pure { Second := Second, Minute := Minute, Hour := Hour, Wday := Wday,
             Day := 1, Month := 1, Year := Year }
    else do
      let (month_bin, previous_days) ← monthLoopUp leap day_bin 14 (-1) 0 0
      pure { Second := Second, Minute := Minute, Hour := Hour, Wday := Wday,
             Day := day_bin - previous_days, Month := month_bin + 1, Year := Year }
  else do
    let sec_bin := Int.tmod time 86400
    let Second := Int.tmod sec_bin 60 + 60
    let min_bin := toInt32 (Int.tdiv sec_bin 60)
    let Hour := Int.tdiv min_bin 60 + 23
    let Minute := Int.tmod min_bin 60 + 59
    let day_bin := toInt32 (Int.tdiv time 86400)
    let w ← int32 (day_bin - 3)
    let Wday := 7 - Int.tmod (abs w) 7
    let y400 ← int32 (day_bin * 400)
    let y2 ← int32 (y400 + 2)
    let Year := Int.tdiv y2 146097 - 1
    let leap := LEAP_YEAR Year
    let day_bin := yearLoopDown (-1 - Year).toNat (-1) day_bin
    if day_bin = 0 then
      pure { Second := Second, Minute := Minute, Hour := Hour, Wday := Wday,
             Day := 31, Month := 12, Year := Year }
    else do
      let (month_bin, day_bin) ← monthLoopDown leap 14 13 day_bin
      pure { Second := Second, Minute := Minute, Hour := Hour, Wday := Wday,
             Day := day_bin, Month := month_bin, Year := Year }

/-! ## makeTime -/

/-- The loop `for (i = 0; i < tm.Year; i++) if (LEAP_YEAR(i)) seconds += SECS_PER_DAY`,
started at `i` with `n` iterations left. -/
def leapLoopUp : Nat → Int → Int → Int
  | 0, _, seconds => seconds
  | n + 1, i, seconds =>
    leapLoopUp n (i + 1) (if LEAP_YEAR i then seconds + SECS_PER_DAY else seconds)

/-- The loop `for (i = -1; i > tm.Year; i--) if (LEAP_YEAR(i)) seconds -= SECS_PER_DAY`,
started at `i` with `n` iterations left. -/
def leapLoopDown : Nat → Int → Int → Int
  | 0, _, seconds => seconds
  | n + 1, i, seconds =>
    leapLoopDown n (i - 1) (if LEAP_YEAR i then seconds - SECS_PER_DAY else seconds)

/-- The loop `for (i = 1; i < tm.Month; i++)` adding the days of the months
before `tm.Month`, started at `i` with `n` iterations left. -/
def monthSumUp (leap : Bool) : Nat → Int → Int → Option Int
  | 0, _, seconds => some seconds
  | n + 1, i, seconds =>
    if i = 2 ∧ leap = true then monthSumUp leap n (i + 1) (seconds + SECS_PER_DAY * 29)
    else
      match readTable monthDays (i - 1) with
      | none => none
      | some d => monthSumUp leap n (i + 1) (seconds + SECS_PER_DAY * d)

/-- The loop `for (i = 12; i > tm.Month; i--) seconds -= tbl[i - 1] * SECS_PER_DAY`,
started at `i` with `n` iterations left. -/
def monthSumDown (tbl : List Int) : Nat → Int → Int → Option Int
  | 0, _, seconds => some seconds
  | n + 1, i, seconds =>
    match readTable tbl (i - 1) with
    | none => none
    | some d => monthSumDown tbl n (i - 1) (seconds - d * SECS_PER_DAY)

/-- `makeTime(tm)`: assemble time elements into an epoch; `none` when a table
is read outside its bounds. -/
def makeTime (tm : tmElements_t) : Option Int :=
  let leap := LEAP_YEAR tm.Year
  if tm.Year ≥ 0 then do
    let seconds := tm.Year * (SECS_PER_DAY * 365)
    let seconds := leapLoopUp tm.Year.toNat 0 seconds
    let seconds ← monthSumUp leap (tm.Month - 1).toNat 1 seconds
    let seconds := seconds + (tm.Day - 1) * SECS_PER_DAY
    let seconds := seconds + tm.Hour * SECS_PER_HOUR
    let seconds := seconds + tm.Minute * SECS_PER_MIN
    let seconds := seconds + tm.Second
    pure seconds
  else do
    let seconds := (tm.Year + 1) * (SECS_PER_DAY * 365)
    let seconds := leapLoopDown (-1 - tm.Year).toNat (-1) seconds
    let tbl := if leap then leapMonthDays else monthDays
    let seconds ← monthSumDown tbl (12 - tm.Month).toNat 12 seconds
    let d ← readTable tbl (tm.Month - 1)
    let seconds := seconds - (d - tm.Day) * SECS_PER_DAY
    let seconds := seconds - (23 - tm.Hour) * SECS_PER_HOUR
    let seconds := seconds - (59 - tm.Minute) * SECS_PER_MIN
    let seconds := seconds - (60 - tm.Second)
    pure seconds

/-! ## Reference calendar (proleptic Gregorian) -/

/-- Gregorian leap rule on a calendar year: divisible by 4 and not by 100, or
divisible by 400. -/
def isLeapGregorian (y : Int) : Bool :=
  decide (y % 4 = 0 ∧ (y % 100 ≠ 0 ∨ y % 400 = 0))

/-- Length of month `m` (1 = January) of calendar year `y`. -/
def monthLength (y m : Int) : Int :=
  if m = 2 then (if isLeapGregorian y then 29 else 28)
  else if m = 4 ∨ m = 6 ∨ m = 9 ∨ m = 11 then 30
  else 31

/-- Number of days in the calendar years `1 .. y - 1`: 365 per year plus one
per leap year among them (`(y-1)/4 - (y-1)/100 + (y-1)/400` of them). -/
def daysBeforeYear (y : Int) : Int :=
  365 * (y - 1) + ((y - 1) / 4 - (y - 1) / 100 + (y - 1) / 400)

/-- Number of days of year `y` before the first day of month `m`. -/
def daysBeforeMonth (y m : Int) : Int :=
  ((List.range (m - 1).toNat).map (fun k => monthLength y ((k : Int) + 1))).sum

/-- Signed number of days from 1970-01-01 to the date `y`-`m`-`d`. -/
def daysFromEpoch (y m d : Int) : Int :=
  daysBeforeYear y - daysBeforeYear 1970 + daysBeforeMonth y m + (d - 1)

/-! ## Software clock -/

/-- Modelled from the spec: the status enumeration declared in the header
`TimeLib64.h` (absent): NotSet, NeedsSync, Set. -/
inductive timeStatus_t where
  | timeNotSet
  | timeNeedsSync
  | timeSet
  deriving DecidableEq, Repr

open timeStatus_t

/-- Modelled from the spec: the header macro `tmYearToCalendar`, which converts
the stored offset from 1970 back to an absolute calendar year. -/
def tmYearToCalendar (Y : Int) : Int := Y + 1970

/-- The file-scope variables of `Time64.cpp`. `getTimePtr` is the address of
the registered sync callback (0 when there is none). `syncCalls` is a ghost
counter of the invocations of the sync callback; nothing reads it. -/
structure ClockState where
  tm : tmElements_t
  cacheTime : Int
  syncInterval : Nat
  sysTime : Int
  prevMillis : Nat
  nextSyncTime : Int
  Status : timeStatus_t
  getTimePtr : Nat
  syncCalls : Nat
  deriving DecidableEq, Repr

/-- The state at program start: statics without initialiser are zero. -/
def initialState : ClockState :=
  { tm := { Second := 0, Minute := 0, Hour := 0, Wday := 0, Day := 0, Month := 0, Year := 0 }
    cacheTime := 0
    syncInterval := 300
    sysTime := 0
    prevMillis := 0
    nextSyncTime := 0
    Status := timeNotSet
    getTimePtr := 0
    syncCalls := 0 }

/-- `refreshCache(t)`. -/
def refreshCache (t : Int) (s : ClockState) : Option ClockState :=
  if t ≠ s.cacheTime then
    match breakTime t with
    | none => none
    | some tm => some { s with tm := tm, cacheTime := t }
  else some s

/-- `hour(t)`: the hour for the given time. -/
def hour (t : Int) (s : ClockState) : Option (Int × ClockState) :=
  (refreshCache t s).map (fun s => (s.tm.Hour, s))

/-- `minute(t)`. -/
def minute (t : Int) (s : ClockState) : Option (Int × ClockState) :=
  (refreshCache t s).map (fun s => (s.tm.Minute, s))

/-- `second(t)`. -/
def second (t : Int) (s : ClockState) : Option (Int × ClockState) :=
  (refreshCache t s).map (fun s => (s.tm.Second, s))

/-- `day(t)`. -/
def day (t : Int) (s : ClockState) : Option (Int × ClockState) :=
  (refreshCache t s).map (fun s => (s.tm.Day, s))

/-- `weekday(t)`. -/
def weekday (t : Int) (s : ClockState) : Option (Int × ClockState) :=
  (refreshCache t s).map (fun s => (s.tm.Wday, s))

/-- `month(t)`. -/
def month (t : Int) (s : ClockState) : Option (Int × ClockState) :=
  (refreshCache t s).map (fun s => (s.tm.Month, s))

/-- `year(t)`. -/
def year (t : Int) (s : ClockState) : Option (Int × ClockState) :=
  (refreshCache t s).map (fun s => (tmYearToCalendar s.tm.Year, s))

/-- `hourFormat12(t)`. -/
def hourFormat12 (t : Int) (s : ClockState) : Option (Int × ClockState) :=
  (refreshCache t s).map (fun s =>
    (if s.tm.Hour = 0 then 12 else if s.tm.Hour > 12 then s.tm.Hour - 12 else s.tm.Hour, s))

/-- `isPM(t)`. -/
def isPM (t : Int) (s : ClockState) : Option (Bool × ClockState) :=
  (hour t s).map (fun r => (decide (r.1 ≥ 12), r.2))

/-- `isAM(t)`. -/
def isAM (t : Int) (s : ClockState) : Option (Bool × ClockState) :=
  (isPM t s).map (fun r => (!r.1, r.2))

/-- `setTime(t)` with the tick source reading `millis`. -/
def setTime (t : Int) (millis : Nat) (s : ClockState) : ClockState :=
  { s with
    sysTime := t
    nextSyncTime := t + (s.syncInterval : Int)
    Status := timeSet
    prevMillis := millis }

/-- The loop `while (millis() - prevMillis >= 1000) { sysTime++; prevMillis += 1000; }`
on 32-bit unsigned ticks, with the reading `millis` constant. The state is
`(sysTime, prevMillis)`; `none` when the fuel runs out. -/
def tickLoop (millis : Nat) : Nat → Int → Nat → Option (Int × Nat)
  | 0, _, _ => none
  | fuel + 1, sysTime, prevMillis =>
    if (millis + 4294967296 - prevMillis) % 4294967296 ≥ 1000 then
      tickLoop millis fuel (sysTime + 1) ((prevMillis + 1000) % 4294967296)
    else some (sysTime, prevMillis)

/-- Fuel for `tickLoop`: a 32-bit difference holds at most 4294967 whole
seconds, and one more test leaves the loop. -/
def tickFuel : Nat := 4294968

/-- `now()` with the tick source reading `millis` (constant during the call);
`ext` is the value the sync callback returns if it is invoked. -/
def now (millis : Nat) (ext : Int) (s : ClockState) : Option (Int × ClockState) :=
  match tickLoop millis tickFuel s.sysTime s.prevMillis with
  | none => none
  | some (sysTime, prevMillis) =>
    let s := { s with sysTime := sysTime, prevMillis := prevMillis }
    let s :=
      if s.nextSyncTime ≤ s.sysTime then
        if s.getTimePtr ≠ 0 then
          let s := { s with syncCalls := s.syncCalls + 1 }
          let t := ext
          if t ≠ 0 then setTime t millis s
          else
            { s with
              nextSyncTime := s.sysTime + (s.syncInterval : Int)
              Status := if s.Status = timeNotSet then timeNotSet else timeNeedsSync }
        else s
      else s
    some (s.sysTime, s)

/-- `setTime(hr, min, sec, dy, mnth, yr)`: writes the fields into the static
`tm` (the conversion cache) and delegates to `setTime(makeTime(tm))`. -/
def setTimeFields (hr min sec dy mnth yr : Int) (millis : Nat) (s : ClockState) :
    Option ClockState :=
  let tm := { s.tm with Year := yr - 1970, Month := mnth, Day := dy, Hour := hr,
                        Minute := min, Second := sec }
  let s := { s with tm := tm }
  (makeTime s.tm).map (fun t => setTime t millis s)

/-- `adjustTime(adjustment)`. -/
def adjustTime (adjustment : Int) (s : ClockState) : ClockState :=
  { s with sysTime := s.sysTime + adjustment }

/-- `timeStatus()`. -/
def timeStatus (millis : Nat) (ext : Int) (s : ClockState) :
    Option (timeStatus_t × ClockState) :=
  (now millis ext s).map (fun r => (r.2.Status, r.2))

/-- `setSyncProvider(getTimeFunction)`. -/
def setSyncProvider (getTimeFunction : Nat) (millis : Nat) (ext : Int) (s : ClockState) :
    Option ClockState :=
  let s := { s with getTimePtr := getTimeFunction }
  let s := { s with nextSyncTime := s.sysTime }
  (now millis ext s).map (fun r => r.2)

/-- `setSyncInterval(interval)`: the interval is narrowed to `uint32_t`. -/
def setSyncInterval (interval : Int) (s : ClockState) : ClockState :=
  let s := { s with syncInterval := (interval % 4294967296).toNat }
  { s with nextSyncTime := s.sysTime + (s.syncInterval : Int) }

/-! ### Overloads without argument: the field of the time now -/

/-- `hour()`: the hour now. -/
def hourNow (millis : Nat) (ext : Int) (s : ClockState) : Option (Int × ClockState) :=
  (now millis ext s).bind (fun r => hour r.1 r.2)

/-- `hourFormat12()`: the hour now in 12 hour format. -/
def hourFormat12Now (millis : Nat) (ext : Int) (s : ClockState) : Option (Int × ClockState) :=
  (now millis ext s).bind (fun r => hourFormat12 r.1 r.2)

/-- `isAM()`: `!isPM(now())`. -/
def isAMNow (millis : Nat) (ext : Int) (s : ClockState) : Option (Bool × ClockState) :=
  ((now millis ext s).bind (fun r => isPM r.1 r.2)).map (fun r => (!r.1, r.2))

/-- `isPM()`. -/
def isPMNow (millis : Nat) (ext : Int) (s : ClockState) : Option (Bool × ClockState) :=
  (now millis ext s).bind (fun r => isPM r.1 r.2)

/-- `minute()`. -/
def minuteNow (millis : Nat) (ext : Int) (s : ClockState) : Option (Int × ClockState) :=
  (now millis ext s).bind (fun r => minute r.1 r.2)

/-- `second()`. -/
def secondNow (millis : Nat) (ext : Int) (s : ClockState) : Option (Int × ClockState) :=
  (now millis ext s).bind (fun r => second r.1 r.2)

/-- `day()`. -/
def dayNow (millis : Nat) (ext : Int) (s : ClockState) : Option (Int × ClockState) :=
  (now millis ext s).bind (fun r => day r.1 r.2)

/-- `weekday()`. -/
def weekdayNow (millis : Nat) (ext : Int) (s : ClockState) : Option (Int × ClockState) :=
  (now millis ext s).bind (fun r => weekday r.1 r.2)

/-- `month()`. -/
def monthNow (millis : Nat) (ext : Int) (s : ClockState) : Option (Int × ClockState) :=
  (now millis ext s).bind (fun r => month r.1 r.2)

/-- `year()`. -/
def yearNow (millis : Nat) (ext : Int) (s : ClockState) : Option (Int × ClockState) :=
  (now millis ext s).bind (fun r => year r.1 r.2)

/-! ### The public operations as a transition system -/

/-- The ten field accessors of the public query surface. -/
inductive Accessor where
  | hour
  | hourFormat12
  | isAM
  | isPM
  | minute
  | second
  | day
  | weekday
  | month
  | year
  deriving DecidableEq, Repr

/-- The public operations of the clock. `accessAt a t` is the explicit-epoch
overload of accessor `a`, `accessNow a` the overload without argument. -/
inductive Op where
  | now
  | timeStatus
  | setTime (t : Int)
  | setTimeFields (hr min sec dy mnth yr : Int)
  | adjustTime (adjustment : Int)
  | setSyncProvider (getTimeFunction : Nat)
  | setSyncInterval (interval : Int)
  | accessAt (a : Accessor) (t : Int)
  | accessNow (a : Accessor)
  deriving DecidableEq, Repr

/-- State left by the explicit-epoch overload of an accessor. -/
def accessAtState (a : Accessor) (t : Int) (s : ClockState) : Option ClockState :=
  match a with
  | .hour => (hour t s).map (fun r => r.2)
  | .hourFormat12 => (hourFormat12 t s).map (fun r => r.2)
  | .isAM => (isAM t s).map (fun r => r.2)
  | .isPM => (isPM t s).map (fun r => r.2)
  | .minute => (minute t s).map (fun r => r.2)
  | .second => (second t s).map (fun r => r.2)
  | .day => (day t s).map (fun r => r.2)
  | .weekday => (weekday t s).map (fun r => r.2)
  | .month => (month t s).map (fun r => r.2)
  | .year => (year t s).map (fun r => r.2)

/-- State left by the overload without argument of an accessor. -/
def accessNowState (a : Accessor) (millis : Nat) (ext : Int) (s : ClockState) :
    Option ClockState :=
  match a with
  | .hour => (hourNow millis ext s).map (fun r => r.2)
  | .hourFormat12 => (hourFormat12Now millis ext s).map (fun r => r.2)
  | .isAM => (isAMNow millis ext s).map (fun r => r.2)
  | .isPM => (isPMNow millis ext s).map (fun r => r.2)
  | .minute => (minuteNow millis ext s).map (fun r => r.2)
  | .second => (secondNow millis ext s).map (fun r => r.2)
  | .day => (dayNow millis ext s).map (fun r => r.2)
  | .weekday => (weekdayNow millis ext s).map (fun r => r.2)
  | .month => (monthNow millis ext s).map (fun r => r.2)
  | .year => (yearNow millis ext s).map (fun r => r.2)

/-- One public operation, run with the tick source reading `millis` and with
`ext` the value the sync callback returns if it is invoked; the result is the
state it leaves (`none` when the execution is undefined). -/
def step (op : Op) (millis : Nat) (ext : Int) (s : ClockState) : Option ClockState :=
  match op with
  | .now => (now millis ext s).map (fun r => r.2)
  | .timeStatus => (timeStatus millis ext s).map (fun r => r.2)
  | .setTime t => some (setTime t millis s)
  | .setTimeFields hr min sec dy mnth yr => setTimeFields hr min sec dy mnth yr millis s
  | .adjustTime adjustment => some (adjustTime adjustment s)
  | .setSyncProvider f => setSyncProvider f millis ext s
  | .setSyncInterval interval => some (setSyncInterval interval s)
  | .accessAt a t => accessAtState a t s
  | .accessNow a => accessNowState a millis ext s

/-- Operations that are a call of `setTime`, in either form. -/
def Op.isSetTime (op : Op) : Bool :=
  match op with
  | .setTime _ => true
  | .setTimeFields _ _ _ _ _ _ => true
  | _ => false

/-! ### The leading statements of breakTime -/

/-- The statements of `breakTime` that set `Second`, `Hour`, `Minute` and
`Wday`: the first lines of either branch, up to the assignment of `tm.Wday` and
before the year estimate. The result is `(Second, Minute, Hour, Wday)`. -/
def breakTimeClock (timeInput : Int) : Option (Int × Int × Int × Int) :=
  let time : Int := timeInput
  if time ≥ 0 then do
    let sec_bin := Int.tmod time 86400
    let Second := Int.tmod sec_bin 60
    let min_bin := toInt32 (Int.tdiv sec_bin 60)
    let Hour := Int.tdiv min_bin 60
    let Minute := Int.tmod min_bin 60
    let day_bin := toInt32 (Int.tdiv time 86400)
    let w ← int32 (day_bin + 4)
    let Wday := Int.tmod w 7 + 1
    pure (Second, Minute, Hour, Wday)
  else do
    let sec_bin := Int.tmod time 86400
    let Second := Int.tmod sec_bin 60 + 60
    let min_bin := toInt32 (Int.tdiv sec_bin 60)
    let Hour := Int.tdiv min_bin 60 + 23
    let Minute := Int.tmod min_bin 60 + 59
    let day_bin := toInt32 (Int.tdiv time 86400)
    let w ← int32 (day_bin - 3)
    let Wday := 7 - Int.tmod (abs w) 7
    pure (Second, Minute, Hour, Wday)

/-! ## Reference calendar: the closed form counts one day per leap year -/

theorem LEAP_YEAR_eq_gregorian (Y : Int) (h : 1970 + Y ≥ 1) :
    LEAP_YEAR Y = isLeapGregorian (1970 + Y) := by
  have h4 : Int.tmod (1970 + Y) 4 = (1970 + Y) % 4 := Int.tmod_eq_emod (by omega) (by omega)
  have h100 : Int.tmod (1970 + Y) 100 = (1970 + Y) % 100 := Int.tmod_eq_emod (by omega) (by omega)
  have h400 : Int.tmod (1970 + Y) 400 = (1970 + Y) % 400 := Int.tmod_eq_emod (by omega) (by omega)
  have hpos : 1970 + Y > 0 := by omega
  simp only [LEAP_YEAR, isLeapGregorian, h4, h100, h400]
  simp [hpos]

/-- A year contributes 365 days to `daysBeforeYear`, and one more when it is a
leap year. -/
theorem daysBeforeYear_succ (y : Int) :
    daysBeforeYear (y + 1) = daysBeforeYear y + (if isLeapGregorian y then 366 else 365) := by
  unfold daysBeforeYear isLeapGregorian
  split_ifs with h <;> simp at h <;> omega

/-- The reference day count is 0 on 1970-01-01. -/
theorem daysFromEpoch_epoch : daysFromEpoch 1970 1 1 = 0 := by
  decide

/-- The reference day count advances by one from a day to the next day of the
same month. -/
theorem daysFromEpoch_next_day (y m d : Int) :
    daysFromEpoch y m (d + 1) = daysFromEpoch y m d + 1 := by
  unfold daysFromEpoch; ring

/-- The reference day count advances by one from the last day of a month to
the first day of the next month. -/
theorem daysFromEpoch_next_month (y m : Int) (hm1 : 1 ≤ m) (hm2 : m ≤ 11) :
    daysFromEpoch y (m + 1) 1 = daysFromEpoch y m (monthLength y m) + 1 := by
  unfold daysFromEpoch
  rcases Bool.eq_false_or_eq_true (isLeapGregorian y) with hleap | hleap <;>
  interval_cases m <;>
    simp [daysBeforeMonth, monthLength, hleap, List.range_succ] <;> ring

/-- The reference day count advances by one from 31 December to 1 January of
the next year. -/
theorem daysFromEpoch_next_year (y : Int) :
    daysFromEpoch (y + 1) 1 1 = daysFromEpoch y 12 31 + 1 := by
  unfold daysFromEpoch
  rw [daysBeforeYear_succ]
  rcases Bool.eq_false_or_eq_true (isLeapGregorian y) with hleap | hleap <;>
    simp [daysBeforeMonth, monthLength, hleap, List.range_succ] <;> ring

/-! ## makeTime against the reference -/

theorem leapLoopUp_eq (n : Nat) : ∀ (i s : Int), 1970 + i ≥ 1 →
    leapLoopUp n i s =
      s + 86400 * (daysBeforeYear (1970 + i + n) - daysBeforeYear (1970 + i) - 365 * n) := by
  induction n with
  | zero => intro i s _; simp [leapLoopUp]
  | succ n ih =>
    intro i s hi
    rw [leapLoopUp, ih (i + 1) _ (by omega), LEAP_YEAR_eq_gregorian i hi]
    have h := daysBeforeYear_succ (1970 + i)
    have e1 : 1970 + (i + 1) + (n : Int) = 1970 + i + ((n + 1 : Nat) : Int) := by push_cast; ring
    have e2 : 1970 + (i + 1) = 1970 + i + 1 := by ring
    rw [e1, e2, h]
    simp only [SECS_PER_DAY]
    split_ifs <;> (push_cast; ring)

theorem leapLoopDown_eq (n : Nat) : ∀ (i s : Int), 1970 + i - n ≥ 0 →
    leapLoopDown n i s =
      s - 86400 * (daysBeforeYear (1970 + i + 1) - daysBeforeYear (1970 + i + 1 - n) - 365 * n) := by
  induction n with
  | zero => intro i s _; simp [leapLoopDown]
  | succ n ih =>
    intro i s hi
    push_cast at hi
    rw [leapLoopDown, ih (i - 1) _ (by omega), LEAP_YEAR_eq_gregorian i (by omega)]
    have h := daysBeforeYear_succ (1970 + i)
    have e1 : 1970 + (i - 1) + 1 - (n : Int) = 1970 + i + 1 - ((n + 1 : Nat) : Int) := by
      push_cast; ring
    have e2 : 1970 + (i - 1) + 1 = 1970 + i := by ring
    rw [e1, e2, h]
    simp only [SECS_PER_DAY]
    split_ifs <;> (push_cast; ring)

theorem monthSumUp_eq (leap : Bool) (y m s : Int) (hm1 : 1 ≤ m) (hm2 : m ≤ 12)
    (hl : leap = isLeapGregorian y) :
    monthSumUp leap (m - 1).toNat 1 s = some (s + 86400 * daysBeforeMonth y m) := by
  subst hl
  rcases Bool.eq_false_or_eq_true (isLeapGregorian y) with hleap | hleap <;>
  interval_cases m <;>
    simp [monthSumUp, daysBeforeMonth, monthLength, readTable, monthDays, SECS_PER_DAY, hleap,
      List.range_succ] <;> ring

theorem monthSumDown_eq (y m s : Int) (hm1 : 1 ≤ m) (hm2 : m ≤ 12) :
    monthSumDown (if isLeapGregorian y then leapMonthDays else monthDays) (12 - m).toNat 12 s =
      some (s - 86400 * ((if isLeapGregorian y then 366 else 365) - daysBeforeMonth y m
        - monthLength y m)) := by
  rcases Bool.eq_false_or_eq_true (isLeapGregorian y) with hleap | hleap <;>
  interval_cases m <;>
    simp [monthSumDown, daysBeforeMonth, monthLength, readTable, monthDays, leapMonthDays,
      SECS_PER_DAY, hleap, List.range_succ] <;> ring

theorem readTable_month (y m : Int) (hm1 : 1 ≤ m) (hm2 : m ≤ 12) :
    readTable (if isLeapGregorian y then leapMonthDays else monthDays) (m - 1) =
      some (monthLength y m) := by
  rcases Bool.eq_false_or_eq_true (isLeapGregorian y) with hleap | hleap <;>
  interval_cases m <;>
    simp [monthLength, readTable, monthDays, leapMonthDays, hleap]

/-- The epoch computed by `makeTime` for a date in calendar year 1 or later, in
both branches; only the range of `Month` matters for the arithmetic. -/
theorem makeTime_gregorian (f : tmElements_t) (hMonth : 1 ≤ f.Month ∧ f.Month ≤ 12)
    (hYear : 1970 + f.Year ≥ 1) :
    makeTime f = some (86400 * daysFromEpoch (1970 + f.Year) f.Month f.Day
      + 3600 * f.Hour + 60 * f.Minute + f.Second) := by
  have hleap := LEAP_YEAR_eq_gregorian f.Year hYear
  unfold makeTime
  split_ifs with hy
  · have h1 := leapLoopUp_eq f.Year.toNat 0 (f.Year * (SECS_PER_DAY * 365)) (by omega)
    have hc : ((f.Year.toNat : Nat) : Int) = f.Year := Int.toNat_of_nonneg hy
    have e0 : (1970 : Int) + 0 + f.Year = 1970 + f.Year := by ring
    rw [hc, e0, add_zero] at h1
    have h2 := monthSumUp_eq (LEAP_YEAR f.Year) (1970 + f.Year) f.Month
      (leapLoopUp f.Year.toNat 0 (f.Year * (SECS_PER_DAY * 365))) hMonth.1 hMonth.2 hleap
    simp only [bind, Option.bind, pure]
    rw [h2, h1]
    simp only [SECS_PER_DAY, SECS_PER_HOUR, SECS_PER_MIN, daysFromEpoch]
    congr 1
    ring
  · have h1 := leapLoopDown_eq (-1 - f.Year).toNat (-1) ((f.Year + 1) * (SECS_PER_DAY * 365))
      (by omega)
    have hc : (((-1 - f.Year).toNat : Nat) : Int) = -1 - f.Year := Int.toNat_of_nonneg (by omega)
    have e : (1970 : Int) + -1 + 1 - (-1 - f.Year) = 1970 + f.Year + 1 := by ring
    have e0 : (1970 : Int) + -1 + 1 = 1970 := by norm_num
    rw [hc, e, e0] at h1
    have h2 := monthSumDown_eq (1970 + f.Year) f.Month
      (leapLoopDown (-1 - f.Year).toNat (-1) ((f.Year + 1) * (SECS_PER_DAY * 365)))
      hMonth.1 hMonth.2
    have h3 := readTable_month (1970 + f.Year) f.Month hMonth.1 hMonth.2
    have h4 := daysBeforeYear_succ (1970 + f.Year)
    rw [hleap]
    simp only [bind, Option.bind, pure]
    rw [h2, h3, h1, h4]
    simp only [SECS_PER_DAY, SECS_PER_HOUR, SECS_PER_MIN, daysFromEpoch]
    congr 1
    split_ifs <;> ring

/-! ## breakTime: time of day of a non-negative epoch -/

theorem toInt32_of_range (x : Int) (h1 : -2147483648 ≤ x) (h2 : x ≤ 2147483647) :
    toInt32 x = x := by
  unfold toInt32; omega

/-- On a non-negative epoch the date fields depend only on the day count and
the time-of-day fields only on the seconds within the day. -/
theorem breakTime_timeOfDay (d H M S : Int) (hd : 0 ≤ d)
    (hH : 0 ≤ H ∧ H ≤ 23) (hM : 0 ≤ M ∧ M ≤ 59) (hS : 0 ≤ S ∧ S ≤ 59) :
    breakTime (86400 * d + 3600 * H + 60 * M + S) =
      (breakTime (86400 * d)).map (fun r => { r with Second := S, Minute := M, Hour := H }) := by
  have ht : 86400 * d + 3600 * H + 60 * M + S ≥ 0 := by omega
  have ht0 : 86400 * d ≥ 0 := by omega
  have hdiv : Int.tdiv (86400 * d + 3600 * H + 60 * M + S) 86400 = d := by
    rw [Int.tdiv_eq_ediv ht (by omega)]; omega
  have hmod : Int.tmod (86400 * d + 3600 * H + 60 * M + S) 86400 = 3600 * H + 60 * M + S := by
    rw [Int.tmod_eq_emod ht (by omega)]; omega
  have hdiv0 : Int.tdiv (86400 * d) 86400 = d := by
    rw [Int.tdiv_eq_ediv ht0 (by omega)]; omega
  have hmod0 : Int.tmod (86400 * d) 86400 = 0 := by
    rw [Int.tmod_eq_emod ht0 (by omega)]; omega
  have hs : Int.tmod (3600 * H + 60 * M + S) 60 = S := by
    rw [Int.tmod_eq_emod (by omega) (by omega)]; omega
  have hmin : Int.tdiv (3600 * H + 60 * M + S) 60 = 60 * H + M := by
    rw [Int.tdiv_eq_ediv (by omega) (by omega)]; omega
  have hmin32 : toInt32 (60 * H + M) = 60 * H + M := toInt32_of_range _ (by omega) (by omega)
  have hh : Int.tdiv (60 * H + M) 60 = H := by
    rw [Int.tdiv_eq_ediv (by omega) (by omega)]; omega
  have hm : Int.tmod (60 * H + M) 60 = M := by
    rw [Int.tmod_eq_emod (by omega) (by omega)]; omega
  have z1 : Int.tmod 0 60 = 0 := by decide
  have z2 : Int.tdiv 0 60 = 0 := by decide
  have z3 : toInt32 0 = 0 := by decide
  unfold breakTime
  simp only [if_pos ht, if_pos ht0, hdiv, hmod, hdiv0, hmod0, hs, hmin, hmin32, hh, hm, z1, z2, z3]
  cases int32 (toInt32 d + 4) with
  | none => simp
  | some w =>
    simp only [Option.some_bind, Option.bind_eq_bind, bind, pure]
    cases int32 (toInt32 d * 400) with
    | none => simp
    | some y400 =>
      simp only [Option.some_bind]
      cases int32 (y400 + 2) with
      | none => simp
      | some y2 =>
        simp only [Option.some_bind]
        split_ifs
        · simp
        · cases monthLoopUp (LEAP_YEAR (Int.tdiv y2 146097))
            (toInt32 (toInt32 d - yearLoopUp (Int.tdiv y2 146097).toNat 0 (-1))) 14 (-1) 0 0 <;>
            simp

/-- The date part of epoch day 789 (1972-02-29). -/
theorem breakTime_day_789 : breakTime (86400 * 789) =
    some { Second := 0, Minute := 0, Hour := 0, Wday := 3, Day := 29, Month := 2, Year := 2 } := by
  decide

/-! ## Software clock: tick advance -/

/-- Closed form of the tick loop: with enough fuel it runs `d / 1000` times,
where `d` is the 32-bit difference between the reading and the mark. -/
theorem tickLoop_eq (m : Nat) (hm : m < 4294967296) : ∀ (fuel : Nat) (T : Int) (p : Nat),
    p < 4294967296 → (m + 4294967296 - p) % 4294967296 / 1000 < fuel →
    tickLoop m fuel T p =
      some (T + (((m + 4294967296 - p) % 4294967296 / 1000 : Nat) : Int),
            (p + 1000 * ((m + 4294967296 - p) % 4294967296 / 1000)) % 4294967296) := by
  intro fuel
  induction fuel with
  | zero => intro T p _ h; omega
  | succ fuel ih =>
    intro T p hp hf
    rw [tickLoop]
    split_ifs with hge
    · rw [ih (T + 1) ((p + 1000) % 4294967296) (by omega) (by omega)]
      have e1 : (m + 4294967296 - (p + 1000) % 4294967296) % 4294967296 / 1000 + 1 =
          (m + 4294967296 - p) % 4294967296 / 1000 := by omega
      have e2 : ((p + 1000) % 4294967296 +
          1000 * ((m + 4294967296 - (p + 1000) % 4294967296) % 4294967296 / 1000)) % 4294967296 =
          (p + 1000 * ((m + 4294967296 - p) % 4294967296 / 1000)) % 4294967296 := by omega
      rw [e2, ← e1]
      push_cast
      congr 2
      ring
    · have e1 : (m + 4294967296 - p) % 4294967296 / 1000 = 0 := by omega
      rw [e1]
      simp
      omega

theorem now_no_sync (s : ClockState) (m : Nat) (ext : Int)
    (hp : s.prevMillis < 4294967296) (hm : m < 4294967296)
    (hno : s.getTimePtr = 0 ∨ s.nextSyncTime >
      s.sysTime + (((m + 4294967296 - s.prevMillis) % 4294967296 / 1000 : Nat) : Int)) :
    now m ext s =
      some (s.sysTime + (((m + 4294967296 - s.prevMillis) % 4294967296 / 1000 : Nat) : Int),
        { s with
          sysTime := s.sysTime + (((m + 4294967296 - s.prevMillis) % 4294967296 / 1000 : Nat) : Int)
          prevMillis := (s.prevMillis + 1000 * ((m + 4294967296 - s.prevMillis) % 4294967296 / 1000))
            % 4294967296 }) := by
  unfold now
  rw [tickLoop_eq m hm tickFuel s.sysTime s.prevMillis hp (by unfold tickFuel; omega)]
  simp only
  rcases hno with h0 | hgt
  · simp [h0]
  · rw [if_neg (by simpa using hgt)]

/-! ## Calendar converter: the claims -/

/-- Claim C1 (round trip fields -> epoch -> fields) does not hold on the code.
For 1971-01-01 00:00:00 `makeTime` gives 31536000, on which `breakTime`
estimates the year as 1970 and runs its month loop past the end of
`monthDays`. For 2072-12-31 00:00:00 `makeTime` gives 3250368000, on which
`breakTime` estimates the year as 2073 and answers 2073-01-01. For
1969-12-31 23:59:00 `makeTime` gives -60, on which `breakTime` answers
23:58:60. -/
theorem roundtrip_fields_breaks :
    makeTime { Second := 0, Minute := 0, Hour := 0, Wday := 0, Day := 1, Month := 1, Year := 1 }
        = some 31536000 ∧
      breakTime 31536000 = none ∧
    makeTime { Second := 0, Minute := 0, Hour := 0, Wday := 0, Day := 31, Month := 12,
               Year := 102 } = some 3250368000 ∧
      breakTime 3250368000 =
        some { Second := 0, Minute := 0, Hour := 0, Wday := 7, Day := 1, Month := 1,
               Year := 103 } ∧
    makeTime { Second := 0, Minute := 59, Hour := 23, Wday := 0, Day := 31, Month := 12,
               Year := -1 } = some (-60) ∧
      breakTime (-60) =
        some { Second := 60, Minute := 58, Hour := 23, Wday := 4, Day := 31, Month := 12,
               Year := -1 } := by
  set_option maxRecDepth 100000 in decide

/-- Claim C2 (`makeTime (breakTime t) = t`) does not hold on the code. The epoch
3250368000 is 2072-12-31 00:00:00; `breakTime` answers 2073-01-01 00:00:00,
which `makeTime` maps to 3250454400, one day later. -/
theorem makeTime_breakTime_breaks :
    breakTime 3250368000 =
        some { Second := 0, Minute := 0, Hour := 0, Wday := 7, Day := 1, Month := 1,
               Year := 103 } ∧
      makeTime { Second := 0, Minute := 0, Hour := 0, Wday := 7, Day := 1, Month := 1,
                 Year := 103 } = some 3250454400 ∧
      (3250454400 : Int) ≠ 3250368000 := by
  set_option maxRecDepth 100000 in decide

/-- Claim C3 (`breakTime` always produces Month in 1..12 and a valid Day) does
not hold on the code: at 31536000 (1971-01-01 00:00:00) the non-negative branch
reads `monthDays[12]`, and at -31536001 (1968-12-31 23:59:59) the negative
branch reads `monthDays[-1]`; no record with a month in 1..12 is produced. -/
theorem breakTime_range_breaks :
    breakTime 31536000 = none ∧ breakTime (-31536001) = none := by
  decide

/-- Claim C4 (Second in 0..59 for every negative epoch) does not hold on the
code: `breakTime (-60)` has Second = 60 (and Minute = 58 instead of 59). -/
theorem breakTime_negative_second_60 :
    breakTime (-60) =
      some { Second := 60, Minute := 58, Hour := 23, Wday := 4, Day := 31, Month := 12,
             Year := -1 } := by
  decide

/-- Claim C5: for fields with Month in 1..12, Day in 1..(length of the month),
Hour in 0..23, Minute and Second in 0..59 and calendar year `1970 + Year >= 1`,
`makeTime` returns `86400 * D + 3600 * Hour + 60 * Minute + Second`, where `D`
is the signed number of days from 1970-01-01 to the date in the proleptic
Gregorian calendar. Both branches (`Year >= 0` and `Year < 0`) are covered. -/
theorem makeTime_eq_reference (f : tmElements_t)
    (hMonth : 1 ≤ f.Month ∧ f.Month ≤ 12)
    (_hDay : 1 ≤ f.Day ∧ f.Day ≤ monthLength (1970 + f.Year) f.Month)
    (_hHour : 0 ≤ f.Hour ∧ f.Hour ≤ 23)
    (_hMinute : 0 ≤ f.Minute ∧ f.Minute ≤ 59)
    (_hSecond : 0 ≤ f.Second ∧ f.Second ≤ 59)
    (hYear : 1970 + f.Year ≥ 1) :
    makeTime f = some (86400 * daysFromEpoch (1970 + f.Year) f.Month f.Day
      + 3600 * f.Hour + 60 * f.Minute + f.Second) :=
  makeTime_gregorian f hMonth hYear

/-- Witness of C5 in the `Year < 0` branch: 1968-02-29 12:34:56, whose day
starts 672 days before the epoch. -/
theorem makeTime_eq_reference_witness :
    daysFromEpoch 1968 2 29 = -672 ∧
    makeTime { Second := 56, Minute := 34, Hour := 12, Wday := 0, Day := 29, Month := 2,
               Year := -2 } = some (86400 * (-672) + 3600 * 12 + 60 * 34 + 56) :=
  ⟨by decide,
   makeTime_eq_reference
     { Second := 56, Minute := 34, Hour := 12, Wday := 0, Day := 29, Month := 2, Year := -2 }
     (by decide) (by decide) (by decide) (by decide) (by decide) (by decide)⟩

/-- Claim C6: `breakTime 0` is exactly Year=0, Month=1, Day=1, Hour=0, Minute=0,
Second=0, Weekday=5 (Thursday, Sunday being 1). -/
theorem breakTime_zero :
    breakTime 0 =
      some { Second := 0, Minute := 0, Hour := 0, Wday := 5, Day := 1, Month := 1, Year := 0 } := by
  decide

/-- Claim C7: `breakTime (-1)` is Year=-1 (1969), Month=12, Day=31, Hour=23,
Minute=59, Second=59 (and the weekday is 4, a Wednesday). -/
theorem breakTime_minus_one :
    breakTime (-1) =
      some { Second := 59, Minute := 59, Hour := 23, Wday := 4, Day := 31, Month := 12,
             Year := -1 } := by
  decide

/-- Claim C8: the leap day of 1972 survives the round trip. For every Hour in
0..23, Minute and Second in 0..59 (and any input weekday), `makeTime` succeeds
on Year=2, Month=2, Day=29 and `breakTime` of the result has Year=2, Month=2,
Day=29, the same time of day, and weekday 3 (Tuesday). -/
theorem leap_day_1972_roundtrip (w Hour Minute Second : Int)
    (hH : 0 ≤ Hour ∧ Hour ≤ 23) (hM : 0 ≤ Minute ∧ Minute ≤ 59) (hS : 0 ≤ Second ∧ Second ≤ 59) :
    (makeTime { Second := Second, Minute := Minute, Hour := Hour, Wday := w, Day := 29,
                Month := 2, Year := 2 }).bind breakTime =
      some { Second := Second, Minute := Minute, Hour := Hour, Wday := 3, Day := 29,
             Month := 2, Year := 2 } := by
  have hmk : makeTime { Second := Second, Minute := Minute, Hour := Hour, Wday := w, Day := 29,
                        Month := 2, Year := 2 } =
      some (86400 * 789 + 3600 * Hour + 60 * Minute + Second) := by
    have hl : LEAP_YEAR 2 = true := by decide
    have hl0 : LEAP_YEAR 0 = false := by decide
    have hl1 : LEAP_YEAR 1 = false := by decide
    simp [makeTime, leapLoopUp, monthSumUp, readTable, monthDays, hl, hl0, hl1, SECS_PER_DAY,
      SECS_PER_HOUR, SECS_PER_MIN]
    ring
  rw [hmk, Option.some_bind, breakTime_timeOfDay 789 Hour Minute Second (by omega) hH hM hS,
    breakTime_day_789]
  rfl

/-- Witness of C8: 1972-02-29 23:59:59 with input weekday 0. -/
theorem leap_day_1972_roundtrip_witness :
    (makeTime { Second := 59, Minute := 59, Hour := 23, Wday := 0, Day := 29,
                Month := 2, Year := 2 }).bind breakTime =
      some { Second := 59, Minute := 59, Hour := 23, Wday := 3, Day := 29,
             Month := 2, Year := 2 } :=
  leap_day_1972_roundtrip 0 23 59 59 (by decide) (by decide) (by decide)

/-! ## Software clock: the claims -/

/-- Claim C9 (the explicit-epoch accessors return the fields of `breakTime t` in
every reachable state, the initial one included) does not hold on the code. In
the initial state the cache claims epoch 0 but holds the all-zero record, so
`day 0`, `month 0` and `weekday 0` return 0 while `breakTime 0` has Day = 1,
Month = 1, Wday = 5. After `setTime(12, 30, 45, 15, 6, 2000)`, which writes its
fields into the cache record without touching `cacheTime`, `hour 0` returns 12
while `breakTime 0` has Hour = 0. -/
theorem accessor_cache_stale :
    (day 0 initialState).map (fun r => r.1) = some 0 ∧
    (month 0 initialState).map (fun r => r.1) = some 0 ∧
    (weekday 0 initialState).map (fun r => r.1) = some 0 ∧
    ((setTimeFields 12 30 45 15 6 2000 0 initialState).bind (hour 0)).map (fun r => r.1)
      = some 12 ∧
    breakTime 0 =
      some { Second := 0, Minute := 0, Hour := 0, Wday := 5, Day := 1, Month := 1, Year := 0 } := by
  set_option maxRecDepth 100000 in decide

/-- Claim C10: tick advance of `now()`. With mark `p`, stored time `T`, 32-bit
reading `m` and `d = (m - p) mod 2^32`, if no sync is triggered (no callback
registered, or `nextSyncTime > T + d / 1000`) then `now()` terminates, returns
`T + d / 1000`, stores it in `sysTime`, advances the mark to
`(p + 1000 * (d / 1000)) mod 2^32` and changes nothing else (in particular not
`nextSyncTime` and `Status`); the retained remainder `(m - mark) mod 2^32` is
`d mod 1000`, which is below 1000. -/
theorem now_tick_advance (s : ClockState) (m : Nat) (ext : Int)
    (hp : s.prevMillis < 4294967296) (hm : m < 4294967296)
    (hno : s.getTimePtr = 0 ∨ s.nextSyncTime >
      s.sysTime + (((m + 4294967296 - s.prevMillis) % 4294967296 / 1000 : Nat) : Int)) :
    now m ext s =
      some (s.sysTime + (((m + 4294967296 - s.prevMillis) % 4294967296 / 1000 : Nat) : Int),
        { s with
          sysTime := s.sysTime + (((m + 4294967296 - s.prevMillis) % 4294967296 / 1000 : Nat) : Int)
          prevMillis := (s.prevMillis + 1000 * ((m + 4294967296 - s.prevMillis) % 4294967296 / 1000))
            % 4294967296 }) ∧
    (m + 4294967296 -
        (s.prevMillis + 1000 * ((m + 4294967296 - s.prevMillis) % 4294967296 / 1000)) % 4294967296)
      % 4294967296 = (m + 4294967296 - s.prevMillis) % 4294967296 % 1000 ∧
    (m + 4294967296 - s.prevMillis) % 4294967296 % 1000 < 1000 := by
  refine ⟨now_no_sync s m ext hp hm hno, ?_, ?_⟩ <;> omega

/-- Witness of C10: after `setTime(1000)` at the reading `2^32 - 1000`, `now()`
at the reading 2500 ms later (1500 after the wrap of the tick counter) returns
1002 and keeps 500 ms: the mark is 1000. -/
theorem now_tick_advance_witness :
    now 1500 0 (setTime 1000 4294966296 initialState) =
      some (1002, { (setTime 1000 4294966296 initialState) with
                    sysTime := 1002, prevMillis := 1000 }) ∧
    (1500 + 4294967296 - 1000) % 4294967296 = 500 ∧
    (1500 + 4294967296 - 4294966296) % 4294967296 % 1000 = 500 := by
  have h := now_tick_advance (setTime 1000 4294966296 initialState) 1500 0
    (by decide) (by decide) (Or.inl (by decide))
  exact ⟨h.1, by decide, by decide⟩


/-! ## Software clock: resync -/

/-- A due sync whose callback returns 0: the tick advance is kept, the next
sync is rescheduled and the status degrades unless it was NotSet. -/
theorem now_sync_fail (s : ClockState) (m : Nat)
    (hp : s.prevMillis < 4294967296) (hm : m < 4294967296)
    (hreg : s.getTimePtr ≠ 0)
    (hdue : s.nextSyncTime ≤
      s.sysTime + (((m + 4294967296 - s.prevMillis) % 4294967296 / 1000 : Nat) : Int)) :
    now m 0 s =
      some (s.sysTime + (((m + 4294967296 - s.prevMillis) % 4294967296 / 1000 : Nat) : Int),
        { s with
          sysTime := s.sysTime + (((m + 4294967296 - s.prevMillis) % 4294967296 / 1000 : Nat) : Int)
          prevMillis := (s.prevMillis + 1000 * ((m + 4294967296 - s.prevMillis) % 4294967296 / 1000))
            % 4294967296
          syncCalls := s.syncCalls + 1
          nextSyncTime :=
            s.sysTime + (((m + 4294967296 - s.prevMillis) % 4294967296 / 1000 : Nat) : Int)
              + (s.syncInterval : Int)
          Status := if s.Status = timeNotSet then timeNotSet else timeNeedsSync }) := by
  unfold now
  rw [tickLoop_eq m hm tickFuel s.sysTime s.prevMillis hp (by unfold tickFuel; omega)]
  simp only
  rw [if_pos hdue, if_pos hreg]
  simp

/-- A due sync whose callback returns a nonzero value: the value is accepted
through `setTime`. -/
theorem now_sync_accept (s : ClockState) (m : Nat) (t : Int)
    (hp : s.prevMillis < 4294967296) (hm : m < 4294967296)
    (hreg : s.getTimePtr ≠ 0) (ht : t ≠ 0)
    (hdue : s.nextSyncTime ≤
      s.sysTime + (((m + 4294967296 - s.prevMillis) % 4294967296 / 1000 : Nat) : Int)) :
    now m t s = some (t, setTime t m { s with syncCalls := s.syncCalls + 1 }) := by
  unfold now
  rw [tickLoop_eq m hm tickFuel s.sysTime s.prevMillis hp (by unfold tickFuel; omega)]
  simp only
  rw [if_pos hdue, if_pos hreg]
  simp [ht, setTime]

/-- Two polls without a callback: the second call at a later (or equal) reading
leaves what a single call at that reading leaves. -/
theorem now_twice_no_callback (s : ClockState) (m1 m2 : Nat) (e1 e2 e : Int)
    (hp : s.prevMillis < 4294967296) (hm1 : m1 < 4294967296) (hm2 : m2 < 4294967296)
    (hcb : s.getTimePtr = 0)
    (hle : (m1 + 4294967296 - s.prevMillis) % 4294967296 ≤
      (m2 + 4294967296 - s.prevMillis) % 4294967296) :
    (now m1 e1 s).bind (fun r => now m2 e2 r.2) = now m2 e s := by
  rw [now_no_sync s m1 e1 hp hm1 (Or.inl hcb), now_no_sync s m2 e hp hm2 (Or.inl hcb),
    Option.some_bind]
  dsimp only
  rw [now_no_sync
    { s with
      sysTime := s.sysTime + (((m1 + 4294967296 - s.prevMillis) % 4294967296 / 1000 : Nat) : Int)
      prevMillis := (s.prevMillis + 1000 * ((m1 + 4294967296 - s.prevMillis) % 4294967296 / 1000))
        % 4294967296 }
    m2 e2 (Nat.mod_lt _ (by norm_num)) hm2 (Or.inl hcb)]
  dsimp only
  have ek : (m2 + 4294967296 -
      (s.prevMillis + 1000 * ((m1 + 4294967296 - s.prevMillis) % 4294967296 / 1000)) % 4294967296)
        % 4294967296 / 1000 + (m1 + 4294967296 - s.prevMillis) % 4294967296 / 1000 =
      (m2 + 4294967296 - s.prevMillis) % 4294967296 / 1000 := by omega
  have ep : ((s.prevMillis + 1000 * ((m1 + 4294967296 - s.prevMillis) % 4294967296 / 1000))
        % 4294967296 + 1000 * ((m2 + 4294967296 -
      (s.prevMillis + 1000 * ((m1 + 4294967296 - s.prevMillis) % 4294967296 / 1000)) % 4294967296)
        % 4294967296 / 1000)) % 4294967296 =
      (s.prevMillis + 1000 * ((m2 + 4294967296 - s.prevMillis) % 4294967296 / 1000))
        % 4294967296 := by omega
  rw [ep, ← ek]
  push_cast
  have e3 : ∀ a b : Int, s.sysTime + a + b = s.sysTime + (b + a) := by intro a b; ring
  rw [e3]

/-! ## Software clock: resync, set, adjust and polling claims -/

/-- Claim C11: failed resync. When `now()` finds `nextSyncTime <= sysTime`
after the tick advance, a callback is registered and it returns 0, then
`now()` returns the tick-advanced `sysTime` (the sync step does not change it),
`nextSyncTime` becomes that `sysTime` plus `syncInterval`, and the status
stays NotSet if it was NotSet and is NeedsSync otherwise (it was Set or
NeedsSync); the callback has been invoked once. -/
theorem failed_resync (s : ClockState) (m : Nat)
    (hp : s.prevMillis < 4294967296) (hm : m < 4294967296)
    (hreg : s.getTimePtr ≠ 0)
    (hdue : s.nextSyncTime ≤
      s.sysTime + (((m + 4294967296 - s.prevMillis) % 4294967296 / 1000 : Nat) : Int)) :
    now m 0 s =
      some (s.sysTime + (((m + 4294967296 - s.prevMillis) % 4294967296 / 1000 : Nat) : Int),
        { s with
          sysTime := s.sysTime + (((m + 4294967296 - s.prevMillis) % 4294967296 / 1000 : Nat) : Int)
          prevMillis := (s.prevMillis + 1000 * ((m + 4294967296 - s.prevMillis) % 4294967296 / 1000))
            % 4294967296
          syncCalls := s.syncCalls + 1
          nextSyncTime :=
            s.sysTime + (((m + 4294967296 - s.prevMillis) % 4294967296 / 1000 : Nat) : Int)
              + (s.syncInterval : Int)
          Status := if s.Status = timeNotSet then timeNotSet else timeNeedsSync }) :=
  now_sync_fail s m hp hm hreg hdue

/-- Witness of C11: with a callback registered, `setTime(1000)` at reading 0,
then `setSyncInterval(60)`, then `now()` 60 s later with the callback returning
0: the status is NeedsSync and `nextSyncTime = 1060 + 60`. -/
theorem failed_resync_witness :
    now 60000 0 (setSyncInterval 60 (setTime 1000 0 { initialState with getTimePtr := 1 })) =
      some (1060,
        { initialState with
          getTimePtr := 1
          syncInterval := 60
          sysTime := 1060
          prevMillis := 60000
          syncCalls := 1
          nextSyncTime := 1120
          Status := timeNeedsSync }) :=
  failed_resync (setSyncInterval 60 (setTime 1000 0 { initialState with getTimePtr := 1 })) 60000
    (by decide) (by decide) (by decide) (by decide)

/-- Claim C12: `setTime(t)` leaves `sysTime = t`, `nextSyncTime = t + syncInterval`,
`Status = Set` and the tick mark equal to the tick-source reading, with
`syncInterval` and the callback unchanged (first six conjuncts, for every state
and every `t`); and a `now()` call whose due sync callback returns a nonzero
`t` returns `t` and leaves the state that `setTime(t)` produces (the ghost
counter of callback invocations, which is no program variable, advanced by one). -/
theorem setTime_postcondition (s : ClockState) (t : Int) (m : Nat) :
    (setTime t m s).sysTime = t ∧
    (setTime t m s).nextSyncTime = t + ((setTime t m s).syncInterval : Int) ∧
    (setTime t m s).Status = timeSet ∧
    (setTime t m s).prevMillis = m ∧
    (setTime t m s).syncInterval = s.syncInterval ∧
    (setTime t m s).getTimePtr = s.getTimePtr ∧
    (s.prevMillis < 4294967296 → m < 4294967296 → s.getTimePtr ≠ 0 → t ≠ 0 →
      s.nextSyncTime ≤
        s.sysTime + (((m + 4294967296 - s.prevMillis) % 4294967296 / 1000 : Nat) : Int) →
      now m t s = some (t, { setTime t m s with syncCalls := s.syncCalls + 1 })) :=
  ⟨rfl, rfl, rfl, rfl, rfl, rfl, fun hp hm hreg ht hdue => now_sync_accept s m t hp hm hreg ht hdue⟩

/-- Witness of C12: the initial state with a callback registered; a sync is due
(`nextSyncTime = 0 <= sysTime`) and the callback returns 1700000000 at reading
2500. -/
theorem setTime_postcondition_witness :
    now 2500 1700000000 { initialState with getTimePtr := 1 } =
      some (1700000000,
        { initialState with
          getTimePtr := 1
          sysTime := 1700000000
          nextSyncTime := 1700000300
          Status := timeSet
          prevMillis := 2500
          syncCalls := 1 }) :=
  (setTime_postcondition { initialState with getTimePtr := 1 } 1700000000 2500).2.2.2.2.2.2
    (by decide) (by decide) (by decide) (by decide) (by decide)

/-- Claim C14: provider registration forces a resync. For every state and every
non-null callback `cb`, `setSyncProvider(cb)` returns, installs `cb` and
invokes it exactly once; if it returns a nonzero `t`, then `sysTime = t`,
`Status = Set` and `nextSyncTime = t + syncInterval`; if it returns 0, then
`nextSyncTime = sysTime + syncInterval` and the status is NeedsSync, or NotSet
if it was NotSet. -/
theorem setSyncProvider_forces_resync (s : ClockState) (cb : Nat) (m : Nat) (ext : Int)
    (hp : s.prevMillis < 4294967296) (hm : m < 4294967296) (hcb : cb ≠ 0) :
    ∃ s1, setSyncProvider cb m ext s = some s1 ∧
      s1.getTimePtr = cb ∧
      s1.syncCalls = s.syncCalls + 1 ∧
      s1.syncInterval = s.syncInterval ∧
      (ext ≠ 0 → s1.sysTime = ext ∧ s1.Status = timeSet ∧
        s1.nextSyncTime = ext + (s.syncInterval : Int)) ∧
      (ext = 0 → s1.nextSyncTime = s1.sysTime + (s.syncInterval : Int) ∧
        s1.Status = (if s.Status = timeNotSet then timeNotSet else timeNeedsSync)) := by
  have hdue : ({ s with getTimePtr := cb, nextSyncTime := s.sysTime } : ClockState).nextSyncTime ≤
      s.sysTime + (((m + 4294967296 - s.prevMillis) % 4294967296 / 1000 : Nat) : Int) := by
    show s.sysTime ≤ _
    omega
  have hsp : setSyncProvider cb m ext s =
      (now m ext { s with getTimePtr := cb, nextSyncTime := s.sysTime }).map (fun r => r.2) := rfl
  rw [hsp]
  by_cases hext : ext = 0
  · subst hext
    rw [now_sync_fail { s with getTimePtr := cb, nextSyncTime := s.sysTime } m hp hm hcb hdue,
      Option.map_some']
    exact ⟨_, rfl, rfl, rfl, rfl, fun h0 => absurd rfl h0, fun _ => ⟨rfl, rfl⟩⟩
  · rw [now_sync_accept { s with getTimePtr := cb, nextSyncTime := s.sysTime } m ext
      hp hm hcb hext hdue, Option.map_some']
    exact ⟨_, rfl, rfl, rfl, rfl, fun _ => ⟨rfl, rfl, rfl⟩, fun h0 => absurd h0 hext⟩

/-- Witness of C14: registering a provider in the initial state at reading
2500. When the callback returns 0, the clock stays NotSet and the next sync is
scheduled 300 s after the tick-advanced time; when it returns 1700000000, the
clock is Set to it. -/
theorem setSyncProvider_forces_resync_witness :
    (∃ s1, setSyncProvider 1 2500 0 initialState = some s1 ∧
      s1.getTimePtr = 1 ∧ s1.syncCalls = 1 ∧
      s1.nextSyncTime = s1.sysTime + 300 ∧ s1.Status = timeNotSet) ∧
    (∃ s1, setSyncProvider 1 2500 1700000000 initialState = some s1 ∧
      s1.getTimePtr = 1 ∧ s1.syncCalls = 1 ∧
      s1.sysTime = 1700000000 ∧ s1.Status = timeSet ∧ s1.nextSyncTime = 1700000300) := by
  obtain ⟨a, ha, ha1, ha2, _, _, ha5⟩ :=
    setSyncProvider_forces_resync initialState 1 2500 0 (by decide) (by decide) (by decide)
  obtain ⟨b, hb, hb1, hb2, _, hb4, _⟩ :=
    setSyncProvider_forces_resync initialState 1 2500 1700000000
      (by decide) (by decide) (by decide)
  exact ⟨⟨a, ha, ha1, ha2, (ha5 rfl).1, (ha5 rfl).2⟩,
    ⟨b, hb, hb1, hb2, (hb4 (by decide)).1, (hb4 (by decide)).2.1, (hb4 (by decide)).2.2⟩⟩

/-- Claim C15: for `0 <= n < 2^32`, `setSyncInterval(n)` sets `syncInterval = n`
and `nextSyncTime = sysTime + n` from the stored `sysTime`, and changes nothing
else: no tick advance (`sysTime` and the mark are unchanged), no callback
invocation, same status. -/
theorem setSyncInterval_postcondition (s : ClockState) (n : Int)
    (h0 : 0 ≤ n) (h1 : n < 4294967296) :
    setSyncInterval n s = { s with syncInterval := n.toNat, nextSyncTime := s.sysTime + n } ∧
    ((setSyncInterval n s).syncInterval : Int) = n ∧
    (setSyncInterval n s).nextSyncTime = s.sysTime + n ∧
    (setSyncInterval n s).sysTime = s.sysTime ∧
    (setSyncInterval n s).prevMillis = s.prevMillis ∧
    (setSyncInterval n s).Status = s.Status ∧
    (setSyncInterval n s).syncCalls = s.syncCalls := by
  have hn : n % 4294967296 = n := Int.emod_eq_of_lt h0 h1
  have hc : ((n.toNat : Nat) : Int) = n := Int.toNat_of_nonneg h0
  simp only [setSyncInterval, hn, hc, and_self]

/-- Witness of C15: `setSyncInterval(60)` after `setTime(1000)`. -/
theorem setSyncInterval_postcondition_witness :
    setSyncInterval 60 (setTime 1000 0 initialState) =
      { setTime 1000 0 initialState with syncInterval := 60, nextSyncTime := 1060 } :=
  (setSyncInterval_postcondition (setTime 1000 0 initialState) 60 (by decide) (by decide)).1

/-- Claim C16: `adjustTime(delta)` changes `sysTime` to `sysTime + delta` and
leaves `nextSyncTime`, `syncInterval`, the tick mark, the status, the registered
callback and the conversion cache unchanged. -/
theorem adjustTime_frame (s : ClockState) (delta : Int) :
    (adjustTime delta s).sysTime = s.sysTime + delta ∧
    (adjustTime delta s).nextSyncTime = s.nextSyncTime ∧
    (adjustTime delta s).syncInterval = s.syncInterval ∧
    (adjustTime delta s).prevMillis = s.prevMillis ∧
    (adjustTime delta s).Status = s.Status ∧
    (adjustTime delta s).getTimePtr = s.getTimePtr ∧
    (adjustTime delta s).tm = s.tm ∧
    (adjustTime delta s).cacheTime = s.cacheTime ∧
    (adjustTime delta s).syncCalls = s.syncCalls ∧
    adjustTime delta s = { s with sysTime := s.sysTime + delta } :=
  ⟨rfl, rfl, rfl, rfl, rfl, rfl, rfl, rfl, rfl, rfl⟩

/-- Claim C20: polling frequency does not change the clock. With no callback
registered and readings `m1`, `m2` such that `(m1 - p) mod 2^32 <= (m2 - p) mod 2^32`,
`now()` at `m1` followed by `now()` at `m2` returns from the second call the
value, and leaves the state (in particular `sysTime` and the tick mark), of a
single `now()` at `m2`, and that call does return; calling `now()` twice at the
same reading returns the same value and the second call changes nothing. -/
theorem now_polling_invariant (s : ClockState) (m1 m2 : Nat) (ext : Int)
    (hp : s.prevMillis < 4294967296) (hm1 : m1 < 4294967296) (hm2 : m2 < 4294967296)
    (hcb : s.getTimePtr = 0)
    (hle : (m1 + 4294967296 - s.prevMillis) % 4294967296 ≤
      (m2 + 4294967296 - s.prevMillis) % 4294967296) :
    (now m1 ext s).bind (fun r => now m2 ext r.2) = now m2 ext s ∧
    (∃ v s2, now m2 ext s = some (v, s2)) ∧
    (∃ v s1, now m1 ext s = some (v, s1) ∧ now m1 ext s1 = some (v, s1)) := by
  refine ⟨now_twice_no_callback s m1 m2 ext ext ext hp hm1 hm2 hcb hle, ?_, ?_⟩
  · exact ⟨_, _, now_no_sync s m2 ext hp hm2 (Or.inl hcb)⟩
  · have h1 := now_no_sync s m1 ext hp hm1 (Or.inl hcb)
    have h2 := now_twice_no_callback s m1 m1 ext ext ext hp hm1 hm1 hcb (le_refl _)
    rw [h1, Option.some_bind] at h2
    exact ⟨_, _, h1, h2⟩

/-- Witness of C20: from the initial state, polling at 1700 ms and then at
3200 ms gives what a single poll at 3200 ms gives: 3 s and the mark 3000. -/
theorem now_polling_invariant_witness :
    (now 1700 0 initialState).bind (fun r => now 3200 0 r.2) = now 3200 0 initialState ∧
    (∃ v s2, now 3200 0 initialState = some (v, s2)) ∧
    (∃ v s1, now 1700 0 initialState = some (v, s1) ∧ now 1700 0 s1 = some (v, s1)) :=
  now_polling_invariant initialState 1700 3200 0 (by decide) (by decide) (by decide)
    (by decide) (by decide)


/-! ## Software clock: status lifecycle -/

/-- The explicit-epoch accessors touch the conversion cache only. -/
theorem refreshCache_frame (t : Int) (s s1 : ClockState) (h : refreshCache t s = some s1) :
    s1.Status = s.Status ∧ s1.syncCalls = s.syncCalls := by
  unfold refreshCache at h
  split_ifs at h with hc
  · cases hb : breakTime t with
    | none => rw [hb] at h; simp at h
    | some tm =>
      rw [hb] at h
      simp only [Option.some.injEq] at h
      subst h
      exact ⟨rfl, rfl⟩
  · simp only [Option.some.injEq] at h
    subst h
    exact ⟨rfl, rfl⟩

theorem accessAtState_frame (a : Accessor) (t : Int) (s s1 : ClockState)
    (h : accessAtState a t s = some s1) :
    s1.Status = s.Status ∧ s1.syncCalls = s.syncCalls := by
  have key : ∃ s2, refreshCache t s = some s2 ∧ s2 = s1 := by
    cases a <;>
      simp only [accessAtState, hour, hourFormat12, isAM, isPM, minute, second, day, weekday,
        month, year, Option.map_map, Option.map_eq_some', Function.comp] at h <;>
      exact h
  obtain ⟨s2, h2, rfl⟩ := key
  exact refreshCache_frame t s s2 h2

/-- What a call of `now()` does to the status: nothing when the callback is not
invoked; `Set` when it is invoked and returns a nonzero value; `NeedsSync`
(or still `NotSet`) when it is invoked and returns 0. -/
theorem now_status (m : Nat) (ext : Int) (s : ClockState) (r : Int × ClockState)
    (h : now m ext s = some r) :
    (r.2.Status = s.Status ∧ r.2.syncCalls = s.syncCalls) ∨
    (ext ≠ 0 ∧ r.2.Status = timeSet ∧ r.2.syncCalls = s.syncCalls + 1) ∨
    (ext = 0 ∧ r.2.Status = (if s.Status = timeNotSet then timeNotSet else timeNeedsSync) ∧
      r.2.syncCalls = s.syncCalls + 1) := by
  unfold now at h
  cases hl : tickLoop m tickFuel s.sysTime s.prevMillis with
  | none => rw [hl] at h; simp at h
  | some p =>
    obtain ⟨T, q⟩ := p
    rw [hl] at h
    simp only [Option.some.injEq] at h
    subst h
    dsimp only
    by_cases h1 : s.nextSyncTime ≤ T
    · by_cases h2 : s.getTimePtr = 0
      · left; simp [h1, h2]
      · by_cases h3 : ext = 0
        · right; right; simp [h1, h2, h3]
        · right; left; simp [h1, h2, h3, setTime]
    · left; simp [h1]

theorem accessNowState_eq (a : Accessor) (m : Nat) (ext : Int) (s : ClockState) :
    accessNowState a m ext s = (now m ext s).bind (fun r => accessAtState a r.1 r.2) := by
  cases a <;> cases hn : now m ext s <;>
    simp [accessNowState, accessAtState, hourNow, hourFormat12Now, isAMNow, isPMNow, minuteNow,
      secondNow, dayNow, weekdayNow, monthNow, yearNow, isAM, hn, Option.map_map, Function.comp]

/-- Effect of one public operation on the status: the two forms of `setTime`
set it to `Set`; every other operation does to it what its call of `now()`, if
any, does. -/
theorem step_status (op : Op) (m : Nat) (ext : Int) (s s1 : ClockState)
    (h : step op m ext s = some s1) :
    (op.isSetTime = true ∧ s1.Status = timeSet) ∨
    (op.isSetTime = false ∧
      ((s1.Status = s.Status ∧ s1.syncCalls = s.syncCalls) ∨
       (ext ≠ 0 ∧ s1.Status = timeSet ∧ s1.syncCalls = s.syncCalls + 1) ∨
       (ext = 0 ∧ s1.Status = (if s.Status = timeNotSet then timeNotSet else timeNeedsSync) ∧
         s1.syncCalls = s.syncCalls + 1))) := by
  cases op with
  | now =>
    simp only [step, Option.map_eq_some'] at h
    obtain ⟨r, hr, rfl⟩ := h
    exact Or.inr ⟨rfl, now_status m ext s r hr⟩
  | timeStatus =>
    simp only [step, timeStatus, Option.map_map, Option.map_eq_some', Function.comp] at h
    obtain ⟨r, hr, rfl⟩ := h
    exact Or.inr ⟨rfl, now_status m ext s r hr⟩
  | setTime t =>
    simp only [step, Option.some.injEq] at h
    subst h
    exact Or.inl ⟨rfl, rfl⟩
  | setTimeFields hr mi sec dy mnth yr =>
    simp only [step, setTimeFields, Option.map_eq_some'] at h
    obtain ⟨t, _, rfl⟩ := h
    exact Or.inl ⟨rfl, rfl⟩
  | adjustTime adjustment =>
    simp only [step, Option.some.injEq] at h
    subst h
    exact Or.inr ⟨rfl, Or.inl ⟨rfl, rfl⟩⟩
  | setSyncProvider f =>
    simp only [step, setSyncProvider, Option.map_eq_some'] at h
    obtain ⟨r, hr, rfl⟩ := h
    exact Or.inr ⟨rfl, now_status m ext
      { s with getTimePtr := f, nextSyncTime := s.sysTime } r hr⟩
  | setSyncInterval interval =>
    simp only [step, Option.some.injEq] at h
    subst h
    exact Or.inr ⟨rfl, Or.inl ⟨rfl, rfl⟩⟩
  | accessAt a t =>
    simp only [step] at h
    exact Or.inr ⟨rfl, Or.inl (accessAtState_frame a t s s1 h)⟩
  | accessNow a =>
    simp only [step, accessNowState_eq, Option.bind_eq_some] at h
    obtain ⟨r, hr, ha⟩ := h
    obtain ⟨f1, f2⟩ := accessAtState_frame a r.1 r.2 s1 ha
    have hs := now_status m ext s r hr
    rw [← f1, ← f2] at hs
    exact Or.inr ⟨rfl, hs⟩

/-- Claim C13: status lifecycle. The initial status is NotSet; a public
operation started in a state whose status is Set or NeedsSync never leaves the
status NotSet; the status becomes NeedsSync only from Set, in an operation
other than `setTime` during which the sync callback is invoked (a due sync) and
returns 0; the status becomes Set only through `setTime`, called directly (in
either form) or for a value accepted from the invoked sync callback. -/
theorem status_lifecycle (op : Op) (m : Nat) (ext : Int) (s s1 : ClockState)
    (h : step op m ext s = some s1) :
    initialState.Status = timeNotSet ∧
    (s.Status = timeSet ∨ s.Status = timeNeedsSync → s1.Status ≠ timeNotSet) ∧
    (s1.Status = timeNeedsSync → s.Status ≠ timeNeedsSync →
      s.Status = timeSet ∧ op.isSetTime = false ∧ ext = 0 ∧ s1.syncCalls = s.syncCalls + 1) ∧
    (s1.Status = timeSet → s.Status ≠ timeSet →
      op.isSetTime = true ∨ (ext ≠ 0 ∧ s1.syncCalls = s.syncCalls + 1)) := by
  have hs := step_status op m ext s s1 h
  refine ⟨rfl, ?_, ?_, ?_⟩
  · intro h0 h1
    rcases hs with ⟨_, hset⟩ | ⟨_, ⟨heq, _⟩ | ⟨_, hset, _⟩ | ⟨_, hst, _⟩⟩
    · rw [hset] at h1; exact absurd h1 (by decide)
    · rw [heq] at h1; rcases h0 with h0 | h0 <;> rw [h0] at h1 <;> exact absurd h1 (by decide)
    · rw [hset] at h1; exact absurd h1 (by decide)
    · rw [hst] at h1
      rcases h0 with h0 | h0 <;> rw [h0] at h1 <;> exact absurd h1 (by decide)
  · intro h1 h0
    rcases hs with ⟨_, hset⟩ | ⟨hop, ⟨heq, _⟩ | ⟨_, hset, _⟩ | ⟨hext, hst, hc⟩⟩
    · rw [hset] at h1; exact absurd h1 (by decide)
    · rw [heq] at h1; exact absurd h1 h0
    · rw [hset] at h1; exact absurd h1 (by decide)
    · refine ⟨?_, hop, hext, hc⟩
      cases hS : s.Status with
      | timeNotSet => rw [hst, hS] at h1; exact absurd h1 (by decide)
      | timeNeedsSync => exact absurd hS h0
      | timeSet => rfl
  · intro h1 h0
    rcases hs with ⟨hop, _⟩ | ⟨_, ⟨heq, _⟩ | ⟨hext, _, hc⟩ | ⟨_, hst, _⟩⟩
    · exact Or.inl hop
    · rw [heq] at h1; exact absurd h1 h0
    · exact Or.inr ⟨hext, hc⟩
    · rw [hst] at h1
      split_ifs at h1

/-- Witness of C13: a clock that is Set, has a callback and a sync due; `now()`
with the callback returning 0 makes the status NeedsSync, not NotSet. -/
theorem status_lifecycle_witness :
    step Op.now 0 0 (setSyncInterval 0 (setTime 1000 0 { initialState with getTimePtr := 1 })) =
      some { initialState with
             getTimePtr := 1
             syncInterval := 0
             sysTime := 1000
             nextSyncTime := 1000
             Status := timeNeedsSync
             syncCalls := 1 } ∧
    timeNeedsSync ≠ timeNotSet ∧
    (timeSet = timeSet ∧ Op.isSetTime Op.now = false ∧ (0 : Int) = 0 ∧ 1 = 0 + 1) := by
  have h := status_lifecycle Op.now 0 0
    (setSyncInterval 0 (setTime 1000 0 { initialState with getTimePtr := 1 }))
    { initialState with
      getTimePtr := 1
      syncInterval := 0
      sysTime := 1000
      nextSyncTime := 1000
      Status := timeNeedsSync
      syncCalls := 1 } (by decide)
  exact ⟨by decide, h.2.1 (Or.inl rfl), h.2.2.1 rfl (by decide)⟩

/-! ## 12-hour presentation -/

/-- Claim C17: the 12-hour presentation is a faithful encoding of the hour. In
every state and for every epoch `t`: `hourFormat12(t)` is 12 when `hour(t)` is
0, `hour(t) - 12` when `hour(t) > 12` and `hour(t)` otherwise; `isPM(t)` holds
iff `hour(t) >= 12` and `isAM(t)` is its negation (all four leave the same
state); hence whenever `hour(t)` is in 0..23, `hourFormat12(t)` is in 1..12 and
`hourFormat12(t) mod 12 + (12 if isPM(t) else 0) = hour(t)`. -/
theorem twelve_hour_encoding (s : ClockState) (t : Int) :
    hourFormat12 t s =
      (hour t s).map
        (fun r => (if r.1 = 0 then 12 else if r.1 > 12 then r.1 - 12 else r.1, r.2)) ∧
    isPM t s = (hour t s).map (fun r => (decide (r.1 ≥ 12), r.2)) ∧
    isAM t s = (hour t s).map (fun r => (!decide (r.1 ≥ 12), r.2)) ∧
    (∀ h s1, hour t s = some (h, s1) → 0 ≤ h → h ≤ 23 →
      ∃ v pm, hourFormat12 t s = some (v, s1) ∧ isPM t s = some (pm, s1) ∧
        isAM t s = some (!pm, s1) ∧ (pm = true ↔ h ≥ 12) ∧
        1 ≤ v ∧ v ≤ 12 ∧ v % 12 + (if pm then 12 else 0) = h) := by
  have h1 : hourFormat12 t s =
      (hour t s).map
        (fun r => (if r.1 = 0 then 12 else if r.1 > 12 then r.1 - 12 else r.1, r.2)) := by
    unfold hourFormat12 hour
    cases refreshCache t s <;> rfl
  have h2 : isPM t s = (hour t s).map (fun r => (decide (r.1 ≥ 12), r.2)) := rfl
  have h3 : isAM t s = (hour t s).map (fun r => (!decide (r.1 ≥ 12), r.2)) := by
    unfold isAM isPM
    cases hour t s <;> rfl
  refine ⟨h1, h2, h3, ?_⟩
  intro h s1 hh h0 h23
  rw [h1, h2, h3, hh]
  refine ⟨_, _, rfl, rfl, rfl, by simp, ?_, ?_, ?_⟩ <;>
    (dsimp only; interval_cases h <;> simp)

/-- Witness of C17, in the initial state: hour 0 gives 12 and AM, hour 12 gives
12 and PM, hour 13 gives 1 and hour 23 is PM; at 13:00 (epoch 46800) the hour
is recovered as `1 mod 12 + 12`. -/
theorem twelve_hour_encoding_witness :
    ((hour 0 initialState).map (fun r => r.1) = some 0 ∧
      (hourFormat12 0 initialState).map (fun r => r.1) = some 12 ∧
      (isAM 0 initialState).map (fun r => r.1) = some true) ∧
    ((hour 43200 initialState).map (fun r => r.1) = some 12 ∧
      (hourFormat12 43200 initialState).map (fun r => r.1) = some 12 ∧
      (isPM 43200 initialState).map (fun r => r.1) = some true) ∧
    ((hour 46800 initialState).map (fun r => r.1) = some 13 ∧
      (hourFormat12 46800 initialState).map (fun r => r.1) = some 1) ∧
    ((hour 82800 initialState).map (fun r => r.1) = some 23 ∧
      (isPM 82800 initialState).map (fun r => r.1) = some true) ∧
    (∃ s1 v pm, hour 46800 initialState = some (13, s1) ∧
      hourFormat12 46800 initialState = some (v, s1) ∧
      isPM 46800 initialState = some (pm, s1) ∧ isAM 46800 initialState = some (!pm, s1) ∧
      (pm = true ↔ (13 : Int) ≥ 12) ∧ 1 ≤ v ∧ v ≤ 12 ∧ v % 12 + (if pm then 12 else 0) = 13) := by
  have hh : hour 46800 initialState =
      some (13, { initialState with
                  tm := { Second := 0, Minute := 0, Hour := 13, Wday := 5, Day := 1, Month := 1,
                          Year := 0 }
                  cacheTime := 46800 }) := by decide
  obtain ⟨v, pm, hw⟩ := (twelve_hour_encoding initialState 46800).2.2.2 13 _ hh
    (by decide) (by decide)
  exact ⟨by decide, by decide, by decide, by decide, _, v, pm, hh, hw⟩

/-! ## breakTime: time of day and weekday -/

/-- Every record returned by `breakTime` carries the values set by its leading
statements. -/
theorem breakTime_clock_agree (t : Int) (r : tmElements_t) (h : breakTime t = some r) :
    breakTimeClock t = some (r.Second, r.Minute, r.Hour, r.Wday) := by
  unfold breakTime at h
  unfold breakTimeClock
  dsimp only at h ⊢
  split_ifs at h ⊢ with ht
  · cases hw : int32 (toInt32 (Int.tdiv t 86400) + 4) with
    | none => rw [hw] at h; simp at h
    | some w =>
      rw [hw] at h
      simp only [Option.some_bind, Option.bind_eq_bind, bind, pure, Option.bind_eq_some] at h ⊢
      obtain ⟨y400, _, y2, _, h⟩ := h
      split_ifs at h with hz
      · simp only [Option.some.injEq] at h
        subst h
        rfl
      · simp only [Option.bind_eq_some, Option.some.injEq] at h
        obtain ⟨p, _, h⟩ := h
        subst h
        rfl
  · cases hw : int32 (toInt32 (Int.tdiv t 86400) - 3) with
    | none => rw [hw] at h; simp at h
    | some w =>
      rw [hw] at h
      simp only [Option.some_bind, Option.bind_eq_bind, bind, pure, Option.bind_eq_some] at h ⊢
      obtain ⟨y400, _, y2, _, h⟩ := h
      split_ifs at h with hz
      · simp only [Option.some.injEq] at h
        subst h
        rfl
      · simp only [Option.bind_eq_some, Option.some.injEq] at h
        obtain ⟨p, _, h⟩ := h
        subst h
        rfl

/-- Closed form of the leading statements of `breakTime` on a non-negative
epoch whose day count plus 4 fits in 32 bits. -/
theorem breakTimeClock_nonneg (t : Int) (h0 : 0 ≤ t) (hr : t / 86400 + 4 ≤ 2147483647) :
    breakTimeClock t =
      some (t % 60, t % 86400 / 60 % 60, t % 86400 / 3600, (t / 86400 + 4) % 7 + 1) := by
  have hmod : Int.tmod t 86400 = t % 86400 := Int.tmod_eq_emod h0 (by omega)
  have hdiv : Int.tdiv t 86400 = t / 86400 := Int.tdiv_eq_ediv h0 (by omega)
  have hs : Int.tmod (t % 86400) 60 = t % 60 := by
    rw [Int.tmod_eq_emod (by omega) (by omega)]; omega
  have hmin : Int.tdiv (t % 86400) 60 = t % 86400 / 60 :=
    Int.tdiv_eq_ediv (by omega) (by omega)
  have hmin32 : toInt32 (t % 86400 / 60) = t % 86400 / 60 :=
    toInt32_of_range _ (by omega) (by omega)
  have hh : Int.tdiv (t % 86400 / 60) 60 = t % 86400 / 3600 := by
    rw [Int.tdiv_eq_ediv (by omega) (by omega)]; omega
  have hm : Int.tmod (t % 86400 / 60) 60 = t % 86400 / 60 % 60 :=
    Int.tmod_eq_emod (by omega) (by omega)
  have hd32 : toInt32 (t / 86400) = t / 86400 := toInt32_of_range _ (by omega) (by omega)
  have hw : int32 (t / 86400 + 4) = some (t / 86400 + 4) := by
    unfold int32; rw [if_pos ⟨by omega, hr⟩]
  have hwd : Int.tmod (t / 86400 + 4) 7 = (t / 86400 + 4) % 7 :=
    Int.tmod_eq_emod (by omega) (by omega)
  unfold breakTimeClock
  simp only [ge_iff_le, if_pos h0, hmod, hdiv, hs, hmin, hmin32, hh, hm, hd32, hw, hwd,
    Option.some_bind, Option.bind_eq_bind, bind, pure]

/-- The claim C18 as stated (for every `t >= 0` whose day count fits in 32 bits)
fails at the top of that range: for `t = 2147483647 * 86400` the day count is
`2^31 - 1`, so `day_bin + 4` overflows `int32_t` and no weekday is defined (with
wrap-around the result would be -5, outside 1..7). -/
theorem breakTime_wday_overflow :
    (0 : Int) ≤ 185542587100800 ∧
    (185542587100800 : Int) / 86400 = 2147483647 ∧
    toInt32 ((185542587100800 : Int) / 86400) = (185542587100800 : Int) / 86400 ∧
    breakTimeClock 185542587100800 = none ∧
    breakTime 185542587100800 = none ∧
    Int.tmod (toInt32 (2147483647 + 4)) 7 + 1 = -5 := by
  decide

/-- Claim C18, amended: for every epoch `t >= 0` with `t div 86400 + 4 <= 2^31 - 1`
the leading statements of `breakTime` return and set Second = `t mod 60`,
Minute = `((t mod 86400) div 60) mod 60`, Hour = `(t mod 86400) div 3600` and
Wday = `((t div 86400 + 4) mod 7) + 1`; Hour is in 0..23, Minute and Second are
in 0..59, Wday is in 1..7; and every record that `breakTime t` returns carries
these four values. -/
theorem breakTime_nonneg_clock (t : Int) (h0 : 0 ≤ t) (hr : t / 86400 + 4 ≤ 2147483647) :
    breakTimeClock t =
      some (t % 60, t % 86400 / 60 % 60, t % 86400 / 3600, (t / 86400 + 4) % 7 + 1) ∧
    (0 ≤ t % 86400 / 3600 ∧ t % 86400 / 3600 ≤ 23) ∧
    (0 ≤ t % 86400 / 60 % 60 ∧ t % 86400 / 60 % 60 ≤ 59) ∧
    (0 ≤ t % 60 ∧ t % 60 ≤ 59) ∧
    (1 ≤ (t / 86400 + 4) % 7 + 1 ∧ (t / 86400 + 4) % 7 + 1 ≤ 7) ∧
    (∀ r, breakTime t = some r →
      r.Hour = t % 86400 / 3600 ∧ r.Minute = t % 86400 / 60 % 60 ∧ r.Second = t % 60 ∧
      r.Wday = (t / 86400 + 4) % 7 + 1) := by
  have hc := breakTimeClock_nonneg t h0 hr
  refine ⟨hc, by omega, by omega, by omega, by omega, ?_⟩
  intro r hb
  have ha := breakTime_clock_agree t r hb
  rw [hc] at ha
  simp only [Option.some.injEq, Prod.mk.injEq] at ha
  obtain ⟨e1, e2, e3, e4⟩ := ha
  exact ⟨e3.symm, e2.symm, e1.symm, e4.symm⟩

/-- Witness of the amended C18 at 68255999 (1972-02-29 23:59:59, a Tuesday),
where `breakTime` returns a record. -/
theorem breakTime_nonneg_clock_witness :
    breakTimeClock 68255999 = some (59, 59, 23, 3) ∧
    (∃ r, breakTime 68255999 = some r ∧
      r.Hour = 23 ∧ r.Minute = 59 ∧ r.Second = 59 ∧ r.Wday = 3) := by
  have h := breakTime_nonneg_clock 68255999 (by decide) (by decide)
  have hb : breakTime 68255999 =
      some { Second := 59, Minute := 59, Hour := 23, Wday := 3, Day := 29, Month := 2,
             Year := 2 } := by decide
  exact ⟨h.1, _, hb, h.2.2.2.2.2 _ hb⟩

/-- Weekday computed by the negative branch, in closed form: the weekday of the
calendar day that contains `t`, except when `t` is a multiple of 86400, where
it is the weekday of the day before. -/
theorem breakTimeClock_neg_wday (t : Int) (h0 : t < 0) (hr : -2147483645 ≤ t / 86400) :
    ∃ S M H, breakTimeClock t =
      some (S, M, H, ((if t % 86400 = 0 then t / 86400 - 1 else t / 86400) + 4) % 7 + 1) := by
  have hdiv : Int.tdiv t 86400 = -((-t) / 86400) := by
    have e : t = -(-t) := by ring
    rw [e, Int.neg_tdiv, Int.tdiv_eq_ediv (by omega) (by omega)]
    simp
  have hd32 : toInt32 (-((-t) / 86400)) = -((-t) / 86400) :=
    toInt32_of_range _ (by omega) (by omega)
  have hw : int32 (-((-t) / 86400) - 3) = some (-((-t) / 86400) - 3) := by
    unfold int32; rw [if_pos ⟨by omega, by omega⟩]
  have habs : abs (-((-t) / 86400) - 3) = (-t) / 86400 + 3 := by
    unfold abs; rw [if_neg (by omega)]; ring
  have hwd : Int.tmod ((-t) / 86400 + 3) 7 = ((-t) / 86400 + 3) % 7 :=
    Int.tmod_eq_emod (by omega) (by omega)
  have hnot : ¬ t ≥ 0 := by omega
  unfold breakTimeClock
  simp only [if_neg hnot, hdiv, hd32, hw, habs, hwd, Option.some_bind, Option.bind_eq_bind,
    bind, pure]
  have hgoal : 7 - ((-t) / 86400 + 3) % 7 =
      ((if t % 86400 = 0 then t / 86400 - 1 else t / 86400) + 4) % 7 + 1 := by
    split_ifs <;> omega
  rw [hgoal]
  exact ⟨_, _, _, rfl⟩

/-- Claim C19 (the weekday of a negative epoch is that of the calendar day that
contains it) does not hold on the code when the epoch is a multiple of 86400:
-86400 is 1969-12-31 00:00:00, a Wednesday (4), but `breakTime` divides toward
zero, counts the instant as 23:59:60 of 1969-12-30 and answers Tuesday (3); one
second later the weekday is 4. -/
theorem breakTime_wday_midnight :
    breakTime (-86400) =
      some { Second := 60, Minute := 59, Hour := 23, Wday := 3, Day := 30, Month := 12,
             Year := -1 } ∧
    ((-86400 : Int) / 86400 + 4) % 7 + 1 = 4 ∧
    breakTime (-86399) =
      some { Second := 1, Minute := 0, Hour := 0, Wday := 4, Day := 31, Month := 12,
             Year := -1 } := by
  decide

end Time64
